import Mathlib

/-!
Formal model of the credential-security core of the Doki backend.

The development shallowly embeds the Python sources:
  * `app/core/encryption.py`  (Fernet-based token encryption and the
    multi-format storage decoder),
  * `app/api/auth.py`         (Google OAuth login/callback flow),
  * `app/core/jwt_validation.py` and `app/auth/dependencies.py`
    (bearer-token validation),
  * `app/connectors/supabase.py` and `app/connectors/sheets.py`
    (credential store access).

Python `bytes` values and `str` values handled by the cipher layer are
both modelled as `List Nat` of byte values / code points (the secrets
handled by this code are ASCII, where the UTF-8 encoding used by
`str.encode` is the identity on code points).  The Fernet cipher itself
is modelled as an abstract authenticated cipher over raw bytes
(`FernetModel`); the base64 and hex encoding layers that the
repository's code manipulates are modelled concretely, byte for byte,
including the legacy `binascii` behaviour of silently discarding
characters outside the base64 alphabet.  External effects (the
provider's token endpoint, Supabase auth, the persistence layer) enter
the model as explicit outcome parameters of the request handlers.
-/

namespace Doki

/-- Byte strings: Python `bytes`, and `str` via its code points. -/
abbrev Bytes := List Nat

/-! ### Base64 (standard and urlsafe), as used by `base64.b64decode`,
`base64.urlsafe_b64decode` and the Fernet token format.

`b64Chr p62 p63 i` maps a 6-bit value to the code of its alphabet
character, where `p62`/`p63` are the codes of characters 62 and 63
(`+` 43 / `/` 47 for the standard alphabet, `-` 45 / `_` 95 for the
urlsafe one).  `b64IdxStd` is the inverse for the standard alphabet;
`base64.urlsafe_b64decode` translates `-`/`_` to `+`/`/` and then runs
the standard decoder. -/

/-- Character code of a 6-bit value in a base64 alphabet. -/
def b64Chr (p62 p63 i : Nat) : Nat :=
  if i < 26 then 65 + i
  else if i < 52 then 97 + (i - 26)
  else if i < 62 then 48 + (i - 52)
  else if i = 62 then p62
  else p63

/-- Standard-alphabet value of a character code, `none` for characters
outside the alphabet (which legacy `binascii` silently discards). -/
def b64IdxStd (c : Nat) : Option Nat :=
  if 65 ≤ c ∧ c ≤ 90 then some (c - 65)
  else if 97 ≤ c ∧ c ≤ 122 then some (c - 97 + 26)
  else if 48 ≤ c ∧ c ≤ 57 then some (c - 48 + 52)
  else if c = 43 then some 62
  else if c = 47 then some 63
  else none

/-- The character translation performed by `base64.urlsafe_b64decode`
before invoking the standard decoder. -/
def urlTranslate (c : Nat) : Nat :=
  if c = 45 then 43 else if c = 95 then 47 else c

/-- Base64 encoding of a byte string (groups of 3 bytes to 4 characters,
with `=` padding, code 61), as produced by `base64.b64encode` /
`base64.urlsafe_b64encode` and by the Fernet token layer. -/
def b64EncodeGroups (p62 p63 : Nat) : Bytes → Bytes
  | [] => []
  | [b0] => [b64Chr p62 p63 (b0 / 4), b64Chr p62 p63 (b0 % 4 * 16), 61, 61]
  | [b0, b1] =>
      [b64Chr p62 p63 (b0 / 4), b64Chr p62 p63 (b0 % 4 * 16 + b1 / 16),
       b64Chr p62 p63 (b1 % 16 * 4), 61]
  | b0 :: b1 :: b2 :: rest =>
      b64Chr p62 p63 (b0 / 4) :: b64Chr p62 p63 (b0 % 4 * 16 + b1 / 16) ::
      b64Chr p62 p63 (b1 % 16 * 4 + b2 / 64) :: b64Chr p62 p63 (b2 % 64) ::
      b64EncodeGroups p62 p63 rest

/-- Standard base64 encoding (`base64.b64encode`). -/
def b64EncodeStd (bs : Bytes) : Bytes := b64EncodeGroups 43 47 bs

/-- Urlsafe base64 encoding (`base64.urlsafe_b64encode`, the Fernet
token text). -/
def b64EncodeUrl (bs : Bytes) : Bytes := b64EncodeGroups 45 95 bs

/-- Bytes reconstructed from a full quad of 6-bit values. -/
def b64Quad (a b c d : Nat) : Bytes :=
  [a * 4 + b / 16, b % 16 * 16 + c / 4, c % 4 * 64 + d]

/-- Bytes reconstructed from a final partial group of 2 or 3 values
terminated by padding (the trailing bits of the last value are
discarded, exactly as `binascii` does). -/
def b64Partial : Bytes → Bytes
  | [a, b] => [a * 4 + b / 16]
  | [a, b, c] => [a * 4 + b / 16, b % 16 * 16 + c / 4]
  | _ => []

/-- Legacy (`validate=False`) base64 decoding: characters outside the
alphabet are discarded, `=` after at least two data characters of the
current group terminates the decode, and leftover data characters at
the end of input make the whole decode fail (`binascii.Error`, modelled
as `none`). -/
def b64DecodeGo : Bytes → Bytes → Option Bytes
  | [], buf => if buf.isEmpty then some [] else none
  | c :: rest, buf =>
    if c = 61 then
      if 2 ≤ buf.length then some (b64Partial buf) else b64DecodeGo rest buf
    else
      match b64IdxStd c with
      | none => b64DecodeGo rest buf
      | some v =>
        match buf with
        | [a, b, c'] => (b64DecodeGo rest []).map (fun t => b64Quad a b c' v ++ t)
        | _ => b64DecodeGo rest (buf ++ [v])

/-- Model of `base64.b64decode` (legacy non-strict mode). -/
def b64DecodeLegacy (cs : Bytes) : Option Bytes := b64DecodeGo cs []

/-- Model of `base64.urlsafe_b64decode` (translate `-`/`_`, then
standard legacy decode). -/
def urlsafeB64Decode (cs : Bytes) : Option Bytes :=
  b64DecodeLegacy (cs.map urlTranslate)

/-! ### Hex codec: PostgreSQL `bytea` hex output and Python `bytes.fromhex` -/

/-- Lowercase hex digit character code of a value below 16. -/
def hexDigitChr (n : Nat) : Nat := if n < 10 then 48 + n else 87 + n

/-- Hex encoding of a byte string, as PostgreSQL returns `bytea` values
(two lowercase hex digits per byte). -/
def hexEncodeBytes : Bytes → Bytes
  | [] => []
  | b :: rest => hexDigitChr (b / 16) :: hexDigitChr (b % 16) :: hexEncodeBytes rest

/-- Value of a hex digit character (either case), `none` otherwise. -/
def hexVal (c : Nat) : Option Nat :=
  if 48 ≤ c ∧ c ≤ 57 then some (c - 48)
  else if 97 ≤ c ∧ c ≤ 102 then some (c - 87)
  else if 65 ≤ c ∧ c ≤ 70 then some (c - 55)
  else none

/-- ASCII whitespace, which `bytes.fromhex` skips (Python ≥ 3.7). -/
def isPyWs (c : Nat) : Bool :=
  c == 32 || c == 9 || c == 10 || c == 13 || c == 11 || c == 12

/-- Pairwise hex decoding; odd length or a non-hex character raises
`ValueError` (modelled as `none`). -/
def pyFromHexGo : Bytes → Option Bytes
  | [] => some []
  | [_] => none
  | a :: b :: rest =>
    match hexVal a, hexVal b with
    | some x, some y => (pyFromHexGo rest).map (fun t => (x * 16 + y) :: t)
    | _, _ => none

/-- Model of `bytes.fromhex`. -/
def pyFromHex (cs : Bytes) : Option Bytes :=
  pyFromHexGo (cs.filter (fun c => !(isPyWs c)))

/-! ### Abstract Fernet cipher

`cryptography.fernet.Fernet` produces a raw binary blob (version byte,
timestamp, IV, AES-CBC ciphertext, HMAC) and presents it urlsafe-base64
encoded; decryption base64-decodes the token and accepts the blob only
if its HMAC verifies.  The blob layer is modelled abstractly by a pair
of functions; the properties a real authenticated cipher provides are
stated as explicit assumptions used by the theorems. -/

structure FernetModel where
  encRaw : Bytes → Bytes
  decRaw : Bytes → Option Bytes

/-- The cipher decrypts its own blobs (functional correctness). -/
def FernetModel.Sound (m : FernetModel) : Prop :=
  ∀ p, m.decRaw (m.encRaw p) = some p

/-- Authenticated encryption: only exact outputs of `encRaw` are
accepted by `decRaw` (tampered blobs fail the HMAC check). -/
def FernetModel.Auth (m : FernetModel) : Prop :=
  ∀ r q, m.decRaw r = some q → r = m.encRaw q

/-- Raw blobs are byte strings. -/
def FernetModel.KeepsBytes (m : FernetModel) : Prop :=
  ∀ p, (∀ x ∈ p, x < 256) → ∀ x ∈ m.encRaw p, x < 256

/-- Raw blobs are nonempty (real Fernet blobs are at least 57 bytes). -/
def FernetModel.NonNil (m : FernetModel) : Prop :=
  ∀ p, m.encRaw p ≠ []

/-- Model of `Fernet.encrypt`: the token text is the urlsafe base64 of
the raw blob. -/
def fernetEncrypt (m : FernetModel) (p : Bytes) : Bytes :=
  b64EncodeUrl (m.encRaw p)

/-- Model of `Fernet.decrypt`: urlsafe-base64-decode the token, then
verify and decrypt the blob; any failure raises `InvalidToken`
(modelled as `none`). -/
def fernetDecrypt (m : FernetModel) (tok : Bytes) : Option Bytes :=
  (urlsafeB64Decode tok).bind m.decRaw

/-! ### `app/core/encryption.py` -/

/-- Model of `encrypt_token`: the empty plaintext maps to the empty
bytes sentinel without invoking the cipher. -/
def encrypt_token (m : FernetModel) (plaintext : Bytes) : Bytes :=
  if plaintext = [] then [] else fernetEncrypt m plaintext

/-- Model of `decrypt_token`: empty bytes map back to the empty string;
`none` models a raised `InvalidToken` (the spec's `DecryptionError`). -/
def decrypt_token (m : FernetModel) (encrypted : Bytes) : Option Bytes :=
  if encrypted = [] then some [] else fernetDecrypt m encrypted

/-- Model of `encrypt_token_for_storage`: the Fernet token bytes decoded
to a `str` (the identity at the byte level). -/
def encrypt_token_for_storage (m : FernetModel) (plaintext : Bytes) : Bytes :=
  if plaintext = [] then [] else encrypt_token m plaintext

/-- Input to `decrypt_token_from_storage`: either a `str` from the
database (code points) or raw `bytes`. -/
inductive StorageData where
  | str (s : Bytes)
  | bin (b : Bytes)

/-- The whitespace removal performed by the last-resort branch
(`.replace` of newline, carriage return, space and tab). -/
def storageClean (s : Bytes) : Bytes :=
  s.filter (fun c => !(c == 10 || c == 13 || c == 32 || c == 9))

/-- Whitespace removal followed by padding to a multiple of four with
`=` characters, as the last-resort branch does before `b64decode`. -/
def cleanedB64 (s : Bytes) : Bytes :=
  storageClean s ++ List.replicate ((4 - (storageClean s).length % 4) % 4) 61

/-- The encoding fallthrough of `decrypt_token_from_storage` on a `str`
value (after the optional prefix strip): first `bytes.fromhex`; on
`ValueError` the OLD double-base64 branch retries the same `fromhex`
(so its `b64decode` of the result is unreachable dead code); on its
failure the last resort cleans whitespace, pads and base64-decodes. -/
def storageDecodeBytes (s1 : Bytes) : Option Bytes :=
  match pyFromHex s1 with
  | some bs => some bs
  | none =>
    match pyFromHex s1 with
    | some h => b64DecodeLegacy h
    | none => b64DecodeLegacy (cleanedB64 s1)

/-- Model of `decrypt_token_from_storage`.  A falsy value maps to the
empty string; a `str` is stripped of an optional leading literal
backslash-x (codes 92, 120) and run through the encoding fallthrough,
whose resulting bytes are passed to `decrypt_token`; raw `bytes` go to
`decrypt_token` directly.  A `none` anywhere models the propagated
exception. -/
def decrypt_token_from_storage (m : FernetModel) : StorageData → Option Bytes
  | .bin b => decrypt_token m b
  | .str s =>
    if s = [] then some []
    else
      (storageDecodeBytes (if s.take 2 = [92, 120] then s.drop 2 else s)).bind
        (decrypt_token m)

/-! ### Toy instance of the abstract cipher, used by the witnesses.
Decryption accepts exactly the blobs `toyEnc` produces, so the instance
satisfies every assumption the theorems place on the cipher. -/

def toyEnc (p : Bytes) : Bytes := 128 :: p ++ [p.sum % 256]

def toyDec (r : Bytes) : Option Bytes :=
  if r = 128 :: (r.drop 1).dropLast ++ [(r.drop 1).dropLast.sum % 256] then
    some ((r.drop 1).dropLast)
  else none

def toyFernet : FernetModel := { encRaw := toyEnc, decRaw := toyDec }

/-! ### `app/api/auth.py`: the Google OAuth callback

`google_callback` is a request handler; its interactions with the
session, the provider's token endpoint, Supabase auth and the
persistence layer are modelled by explicit inputs and outputs.  The
handler raises `HTTPException`s at distinct sites, modelled by
`CbErr`. -/

inductive CbErr where
  /-- 400 "Missing OAuth state. Please restart the login flow." -/
  | missingState
  /-- 500 "GOOGLE_REDIRECT_URI is not configured" -/
  | redirectUriMissing
  /-- 400 "Failed to exchange code for tokens: ..." (any exception from
  `flow.fetch_token`, including oauthlib's `MismatchingStateError`). -/
  | exchangeFailed
  /-- 500 "ID token not found in OAuth response. ..." -/
  | idTokenMissing
  /-- 500 "Failed to authenticate with Supabase: ..." -/
  | supabaseAuthFailed
  /-- 500 "Supabase authentication failed: No user or session returned" -/
  | noUserOrSession
  deriving DecidableEq, Repr

inductive CbResult where
  | err (e : CbErr)
  | ok (jwt : String) (uid : String)
  deriving DecidableEq, Repr

/-- The provider name stored with Google credentials. -/
def providerGoogle : String := "google"

/-- The provider name stored with user Supabase connections. -/
def providerSupabase : String := "supabase"

/-- The `credentials_data` record the callback hands to the
`credentials` table insert. -/
structure GoogleCredInsert where
  user_id : String
  provider : String
  access_token_encrypted : Bytes
  refresh_token_encrypted : Option Bytes
  expires_at : Option String
  scopes : List String
  deriving DecidableEq, Repr

/-- External-world outcomes and data for one callback request. -/
structure CbInput where
  /-- The `state` parameter of the callback URL. -/
  returnedState : String
  /-- Whether the provider's token endpoint accepts the code. -/
  exchangeOk : Bool
  /-- `credentials.token` returned by the exchange. -/
  accessToken : Bytes
  /-- `credentials.refresh_token or ""` (empty means absent). -/
  refreshToken : Bytes
  /-- Whether `credentials.id_token` is present. -/
  idTokenPresent : Bool
  /-- `credentials.expiry.isoformat()` when present. -/
  expiresAt : Option String
  /-- `credentials.granted_scopes` as a list. -/
  grantedScopes : List String
  /-- Whether `supabase.auth.sign_in_with_id_token` succeeds. -/
  signInOk : Bool
  /-- Whether the auth response has both a user and a session. -/
  hasUserAndSession : Bool
  supabaseUserId : String
  supabaseJwt : String
  /-- Whether the `credentials` insert succeeds. -/
  insertOk : Bool
  deriving DecidableEq, Repr

/-- Observable outcome of one callback request. -/
structure CbOutput where
  result : CbResult
  /-- `request.session["oauth_state"]` after the request. -/
  sessionAfter : Option String
  /-- Whether a token request was actually sent to the provider. -/
  exchangeAttempted : Bool
  /-- The record handed to the `credentials` insert, when reached. -/
  inserted : Option GoogleCredInsert
  /-- Whether an insert failure was swallowed with a printed warning. -/
  storageWarned : Bool
  deriving DecidableEq, Repr

/-- Model of `google_callback` (auth.py).  Mirrors the source order:
read the pending state (400 if absent), check the redirect URI (500 if
unset), run `flow.fetch_token` — which first verifies the returned
state against the stored one (raising `MismatchingStateError` before
any network call) and then performs the exchange — converting any
exception into the 400 exchange error; only after a successful exchange
pop the session state; then require the ID token, Supabase sign-in and
user+session; finally build `credentials_data` with storage-encrypted
tokens and insert it, swallowing insert failures with a warning. -/
def google_callback (redirectUri : String) (session : Option String) (m : FernetModel)
    (inp : CbInput) : CbOutput :=
  match session with
  | none => ⟨.err .missingState, none, false, none, false⟩
  | some stored =>
    if redirectUri = "" then ⟨.err .redirectUriMissing, some stored, false, none, false⟩
    else if inp.returnedState ≠ stored then
      ⟨.err .exchangeFailed, some stored, false, none, false⟩
    else if inp.exchangeOk = false then
      ⟨.err .exchangeFailed, some stored, true, none, false⟩
    else if inp.idTokenPresent = false then
      ⟨.err .idTokenMissing, none, true, none, false⟩
    else if inp.signInOk = false then
      ⟨.err .supabaseAuthFailed, none, true, none, false⟩
    else if inp.hasUserAndSession = false then
      ⟨.err .noUserOrSession, none, true, none, false⟩
    else
      ⟨.ok inp.supabaseJwt inp.supabaseUserId, none, true,
       some { user_id := inp.supabaseUserId, provider := providerGoogle,
              access_token_encrypted := encrypt_token_for_storage m inp.accessToken,
              refresh_token_encrypted :=
                if inp.refreshToken ≠ [] then
                  some (encrypt_token_for_storage m inp.refreshToken)
                else none,
              expires_at := inp.expiresAt, scopes := inp.grantedScopes },
       !inp.insertOk⟩

/-! ### `app/core/jwt_validation.py`: bearer-token validation

A token string is, after PyJWT's structural parse, either malformed or
a well-formed token carrying the key it was signed with and its claims.
`pyJwtDecode` mirrors PyJWT's `decode`: structural parse
(`DecodeError`), signature verification (`InvalidSignatureError`), then
claim validation — `exp` against the current time with zero leeway
(`ExpiredSignatureError`), then the audience claim. -/

inductive JwtToken where
  | malformed
  | wellFormed (key : Nat) (aud : Option String) (exp : Option Int)
      (sub email phone role : Option String)
  deriving DecidableEq, Repr

inductive JwtError where
  /-- `jwt.exceptions.DecodeError` (structurally malformed token). -/
  | decodeError
  /-- `jwt.exceptions.InvalidSignatureError`. -/
  | invalidSignature
  /-- `jwt.exceptions.ExpiredSignatureError`. -/
  | expired
  /-- `jwt.exceptions.MissingRequiredClaimError` for `aud`. -/
  | missingAudience
  /-- `jwt.exceptions.InvalidAudienceError`. -/
  | invalidAudience
  deriving DecidableEq, Repr

structure JwtPayload where
  aud : Option String
  exp : Option Int
  sub : Option String
  email : Option String
  phone : Option String
  role : Option String
  deriving DecidableEq, Repr

inductive JwtResult where
  | err (e : JwtError)
  | ok (p : JwtPayload)
  deriving DecidableEq, Repr

/-- Audience validation of PyJWT when an `audience` argument is given:
a missing `aud` claim is a missing required claim, a different one is
an invalid audience. -/
def pyJwtAud (audience : String) (aud : Option String) (p : JwtPayload) : JwtResult :=
  match aud with
  | none => .err .missingAudience
  | some a => if a = audience then .ok p else .err .invalidAudience

/-- Model of `jwt.decode(token, secret, audience, algorithms=["HS256"])`. -/
def pyJwtDecode (secret : Nat) (audience : String) (now : Int) :
    JwtToken → JwtResult
  | .malformed => .err .decodeError
  | .wellFormed key aud exp sub email phone role =>
    if key ≠ secret then .err .invalidSignature
    else
      match exp with
      | some e =>
        if e < now then .err .expired
        else pyJwtAud audience aud
          { aud := aud, exp := some e, sub := sub, email := email,
            phone := phone, role := role }
      | none => pyJwtAud audience aud
          { aud := aud, exp := none, sub := sub, email := email,
            phone := phone, role := role }

/-- The fixed expected audience (`validate_jwt_token`'s default). -/
def audAuthenticated : String := "authenticated"

/-- Model of `validate_jwt_token` (jwt_validation.py): PyJWT decode with
the cached HS256 secret and audience "authenticated". -/
def validate_jwt_token (secret : Nat) (now : Int) (tok : JwtToken) : JwtResult :=
  pyJwtDecode secret audAuthenticated now tok

/-- The user projection returned by `extract_user_from_jwt`. -/
structure UserInfo where
  user_id : Option String
  email : Option String
  role : String
  phone : Option String
  deriving DecidableEq, Repr

/-- Model of `extract_user_from_jwt`: pure projection; a missing role
defaults to "authenticated". -/
def extract_user_from_jwt (p : JwtPayload) : UserInfo :=
  { user_id := p.sub, email := p.email, role := p.role.getD audAuthenticated,
    phone := p.phone }

/-! ### Credential store reads (`connectors/supabase.py`,
`connectors/sheets.py`)

A table is a list of rows in the order the store returns them by
default.  `order("created_at", desc=True).limit(1)` is modelled by
selecting a row with maximal `created_at`. -/

structure CredRow where
  id : String
  user_id : String
  provider : String
  created_at : Nat
  deriving DecidableEq, Repr

/-- The PostgREST filter `eq("user_id", uid).eq("provider", prov)`. -/
def queryCreds (table : List CredRow) (uid prov : String) : List CredRow :=
  table.filter (fun r => r.user_id == uid && r.provider == prov)

/-- Result of `order("created_at", desc=True).limit(1)` on a row list:
a row with maximal `created_at` (the later row wins ties arbitrarily,
matching the unspecified tie order of the database). -/
def maxByCreated : List CredRow → Option CredRow
  | [] => none
  | r :: rest =>
    match maxByCreated rest with
    | none => some r
    | some mx => if mx.created_at > r.created_at then some mx else some r

/-- Model of the row selection of `get_user_supabase_client`: filter by
user and provider "supabase", order by `created_at` descending, take
the first row; `none` when no row exists. -/
def get_user_supabase_client_row (table : List CredRow) (uid : String) : Option CredRow :=
  maxByCreated (queryCreds table uid providerSupabase)

/-- Model of the row selection of `get_user_google_credentials`
(sheets.py): filter by user and provider "google" with NO ordering and
take `response.data[0]`; `none` when no row exists. -/
def get_user_google_credentials_row (table : List CredRow) (uid : String) : Option CredRow :=
  (queryCreds table uid providerGoogle).head?

/-! ### `store_user_supabase_connection` (connectors/supabase.py)

The handler builds the credential record, probes the user-supplied
project with `create_client` plus a dummy table query, treats a
"relation ... does not exist" query error as a valid connection,
converts any other probe failure into a `ValueError` without touching
the store, and only then inserts the record. -/

/-- Lowercasing of a byte string (`str.lower` on ASCII). -/
def lowerBytes (s : Bytes) : Bytes :=
  s.map (fun c => if 65 ≤ c ∧ c ≤ 90 then c + 32 else c)

/-- Substring test on byte strings (Python `in`). -/
def bytesContains (hay needle : Bytes) : Bool :=
  (List.range (hay.length + 1)).any (fun i => needle.isPrefixOf (hay.drop i))

/-- The word "relation" as bytes. -/
def relationLit : Bytes := [114, 101, 108, 97, 116, 105, 111, 110]

/-- The words "does not exist" as bytes. -/
def doesNotExistLit : Bytes := [100, 111, 101, 115, 32, 110, 111, 116, 32, 101, 120,
  105, 115, 116]

/-- The check `"relation" in error_msg and "does not exist" in
error_msg` on the lowercased probe error message. -/
def relationMissing (msg : Bytes) : Bool :=
  bytesContains (lowerBytes msg) relationLit &&
    bytesContains (lowerBytes msg) doesNotExistLit

/-- Outcome of the connectivity probe against the user's project. -/
inductive ProbeOutcome where
  /-- The dummy table query succeeded. -/
  | ok
  /-- The dummy table query raised, with the given message. -/
  | queryError (msg : Bytes)
  /-- `create_client` itself raised. -/
  | clientError
  deriving DecidableEq, Repr

/-- Outcome of the `credentials` insert. -/
inductive InsertOutcome where
  /-- `insert(...).execute()` raised (propagates uncaught). -/
  | raises
  /-- The insert returned no data: `ValueError("Failed to store ...")`. -/
  | emptyData
  | okWithId (id : String)
  deriving DecidableEq, Repr

inductive SCErr where
  /-- `ValueError("Failed to connect to Supabase project: ...")`. -/
  | connectFailed
  /-- The uncaught exception of a failing insert. -/
  | insertRaised
  /-- `ValueError("Failed to store Supabase connection")`. -/
  | storeFailed
  deriving DecidableEq, Repr

/-- The record handed to the `credentials` insert for provider
"supabase" (service-role key as access token, anon key as refresh
token, project URL in the metadata). -/
structure SupaCredInsert where
  user_id : String
  provider : String
  access_token_encrypted : Bytes
  refresh_token_encrypted : Option Bytes
  project_url : String
  deriving DecidableEq, Repr

inductive SCResult where
  | err (e : SCErr)
  | ok (id : String)
  deriving DecidableEq, Repr

/-- The insert phase of `store_user_supabase_connection`: the record is
handed to the store; an exception propagates, empty response data
raises `ValueError`, otherwise the new row id is returned. -/
def storeInsert (data : SupaCredInsert) : InsertOutcome → SCResult × Option SupaCredInsert
  | .raises => (.err .insertRaised, some data)
  | .emptyData => (.err .storeFailed, some data)
  | .okWithId i => (.ok i, some data)

/-- The `data` record `store_user_supabase_connection` builds before
the connectivity test: the encrypted service-role key as access token,
the encrypted anon key (when present and nonempty) as refresh token,
and the project URL in the metadata. -/
def supaConnData (m : FernetModel) (user_id project_url : String)
    (anon_key : Option Bytes) (service_role_key : Bytes) : SupaCredInsert :=
  { user_id := user_id, provider := providerSupabase,
    access_token_encrypted := encrypt_token_for_storage m service_role_key,
    refresh_token_encrypted :=
      match anon_key with
      | some a => if a ≠ [] then some (encrypt_token_for_storage m a) else none
      | none => none,
    project_url := project_url }

/-- Model of `store_user_supabase_connection`.  Returns the result and
the record handed to the insert (`none` when the insert was never
reached). -/
def store_user_supabase_connection (m : FernetModel) (user_id project_url : String)
    (anon_key : Option Bytes) (service_role_key : Bytes)
    (probe : ProbeOutcome) (ins : InsertOutcome) : SCResult × Option SupaCredInsert :=
  match probe with
  | .clientError => (.err .connectFailed, none)
  | .queryError msg =>
    if relationMissing msg then
      storeInsert (supaConnData m user_id project_url anon_key service_role_key) ins
    else (.err .connectFailed, none)
  | .ok => storeInsert (supaConnData m user_id project_url anon_key service_role_key) ins

/-! ### Concrete values used by witnesses and counterexamples -/

/-- A pending state token, as issued by `google_login`. -/
def stateA : String := "state-abc"

/-- A state value that was never issued for the session. -/
def stateB : String := "state-other"

/-- A configured redirect URI. -/
def redirectU : String := "https://backend/auth/google/callback"

def jwtS : String := "jwt-token"

def userU : String := "user-7"

/-- Callback input presenting the pending state, whose code exchange is
rejected by the provider. -/
def cbFailExchange : CbInput :=
  { returnedState := stateA, exchangeOk := false, accessToken := [], refreshToken := [],
    idTokenPresent := false, expiresAt := none, grantedScopes := [], signInOk := false,
    hasUserAndSession := false, supabaseUserId := userU, supabaseJwt := jwtS,
    insertOk := true }

/-- Callback input presenting the pending state with a fully successful
flow; the access token is "hi" and the refresh token "rt". -/
def cbSuccess : CbInput :=
  { returnedState := stateA, exchangeOk := true, accessToken := [104, 105],
    refreshToken := [114, 116], idTokenPresent := true, expiresAt := none,
    grantedScopes := [], signInOk := true, hasUserAndSession := true,
    supabaseUserId := userU, supabaseJwt := jwtS, insertOk := true }

/-- Like `cbSuccess` but the credentials insert fails. -/
def cbInsertFails : CbInput := { cbSuccess with insertOk := false }

/-- Like `cbSuccess` but presenting a state that was never issued. -/
def cbWrongState : CbInput := { cbSuccess with returnedState := stateB }

/-- The record `cbSuccess` hands to the credentials insert under the
toy cipher (tokens "gGhp0Q==" and "gHJ05g=="). -/
def cbSuccessRecord : GoogleCredInsert :=
  { user_id := userU, provider := providerGoogle,
    access_token_encrypted := [103, 71, 104, 112, 48, 81, 61, 61],
    refresh_token_encrypted := some [103, 72, 74, 48, 53, 103, 61, 61],
    expires_at := none, scopes := [] }

def uid1 : String := "u1"

def rowOld : CredRow :=
  { id := "r1", user_id := "u1", provider := providerGoogle, created_at := 1 }

def rowNew : CredRow :=
  { id := "r2", user_id := "u1", provider := providerGoogle, created_at := 2 }

def rowSupaOld : CredRow :=
  { id := "s1", user_id := "u1", provider := providerSupabase, created_at := 1 }

def rowSupaNew : CredRow :=
  { id := "s2", user_id := "u1", provider := providerSupabase, created_at := 2 }

def purlLit : String := "https://proj.supabase.co"

def credIdLit : String := "cred-1"

/-- Bytes of "relation missing" probe message: "relation" + space +
"does not exist". -/
def msgRelMissing : Bytes := relationLit ++ [32] ++ doesNotExistLit

/-- Bytes of "conn", a probe failure message that is a genuine
connection error. -/
def msgConnRefused : Bytes := [99, 111, 110, 110]

/-- The service-role key "k" used in the supabase-connect witness. -/
def srkLit : Bytes := [107]

/-- The record `store_user_supabase_connection` hands to the insert for
`srkLit` under the toy cipher (token "gGtr"), with no anon key. -/
def supaDataRec : SupaCredInsert :=
  { user_id := uid1, provider := providerSupabase,
    access_token_encrypted := [103, 71, 116, 114],
    refresh_token_encrypted := none, project_url := purlLit }

/-! ## Theorems -/

/-! ### Generic lemmas about the codecs -/

/-- Induction principle matching the 3-byte grouping of base64 encoding. -/
theorem bytesRec {P : Bytes → Prop} (h0 : P []) (h1 : ∀ b, P [b]) (h2 : ∀ b c, P [b, c])
    (h3 : ∀ b c d rest, P rest → P (b :: c :: d :: rest)) : ∀ bs, P bs := by
  have key : ∀ n bs, List.length bs ≤ n → P bs := by
    intro n
    induction n with
    | zero =>
      intro bs h
      cases bs with
      | nil => exact h0
      | cons a t => simp at h
    | succ n ih =>
      intro bs h
      match bs with
      | [] => exact h0
      | [b] => exact h1 b
      | [b, c] => exact h2 b c
      | b :: c :: d :: rest =>
        refine h3 b c d rest (ih rest ?_)
        simp at h
        omega
  intro bs
  exact key bs.length bs le_rfl

theorem b64Chr_ne_61 (p62 p63 v : Nat) (h62 : p62 ≠ 61) (h63 : p63 ≠ 61) :
    b64Chr p62 p63 v ≠ 61 := by
  unfold b64Chr
  split_ifs <;> omega

theorem b64Chr_lt_256 (p62 p63 v : Nat) (h62 : p62 < 256) (h63 : p63 < 256) :
    b64Chr p62 p63 v < 256 := by
  unfold b64Chr
  split_ifs <;> omega

theorem b64IdxStd_chr (v : Nat) (h : v < 64) : b64IdxStd (b64Chr 43 47 v) = some v := by
  unfold b64Chr b64IdxStd
  split_ifs <;> first
    | exact congrArg some (by omega)
    | exfalso; omega

theorem urlTranslate_chr (v : Nat) : urlTranslate (b64Chr 45 95 v) = b64Chr 43 47 v := by
  unfold b64Chr urlTranslate
  split_ifs <;> omega

theorem urlTranslate_61 : urlTranslate 61 = 61 := rfl

/-- Translating the urlsafe encoding yields the standard encoding. -/
theorem map_urlTranslate_encode (bs : Bytes) :
    (b64EncodeGroups 45 95 bs).map urlTranslate = b64EncodeGroups 43 47 bs := by
  induction bs using bytesRec with
  | h0 => rfl
  | h1 b => simp [b64EncodeGroups, urlTranslate_chr, urlTranslate_61]
  | h2 b c => simp [b64EncodeGroups, urlTranslate_chr, urlTranslate_61]
  | h3 b c d rest ih => simp [b64EncodeGroups, urlTranslate_chr, urlTranslate_61, ih]

theorem b64DecodeGo_nil : b64DecodeGo [] [] = some [] := rfl

theorem b64DecodeGo_step0 (c v : Nat) (hc : c ≠ 61) (hv : b64IdxStd c = some v)
    (rest : Bytes) : b64DecodeGo (c :: rest) [] = b64DecodeGo rest [v] := by
  simp [b64DecodeGo, hc, hv]

theorem b64DecodeGo_step1 (c v a : Nat) (hc : c ≠ 61) (hv : b64IdxStd c = some v)
    (rest : Bytes) : b64DecodeGo (c :: rest) [a] = b64DecodeGo rest [a, v] := by
  simp [b64DecodeGo, hc, hv]

theorem b64DecodeGo_step2 (c v a b : Nat) (hc : c ≠ 61) (hv : b64IdxStd c = some v)
    (rest : Bytes) : b64DecodeGo (c :: rest) [a, b] = b64DecodeGo rest [a, b, v] := by
  simp [b64DecodeGo, hc, hv]

theorem b64DecodeGo_step3 (c v a b d : Nat) (hc : c ≠ 61) (hv : b64IdxStd c = some v)
    (rest : Bytes) :
    b64DecodeGo (c :: rest) [a, b, d] =
      (b64DecodeGo rest []).map (fun t => b64Quad a b d v ++ t) := by
  simp [b64DecodeGo, hc, hv]

theorem b64DecodeGo_pad2 (a b : Nat) (rest : Bytes) :
    b64DecodeGo (61 :: rest) [a, b] = some [a * 4 + b / 16] := by
  simp [b64DecodeGo, b64Partial]

theorem b64DecodeGo_pad3 (a b d : Nat) (rest : Bytes) :
    b64DecodeGo (61 :: rest) [a, b, d] = some [a * 4 + b / 16, b % 16 * 16 + d / 4] := by
  simp [b64DecodeGo, b64Partial]

/-- A full quad decodes back to its three source bytes. -/
theorem b64Quad_encode (x y z : Nat) (hx : x < 256) (hy : y < 256) (hz : z < 256) :
    b64Quad (x / 4) (x % 4 * 16 + y / 16) (y % 16 * 4 + z / 64) (z % 64) = [x, y, z] := by
  unfold b64Quad
  refine congrArg₂ List.cons (by omega) (congrArg₂ List.cons (by omega)
    (congrArg₂ List.cons (by omega) rfl))

/-- Standard-mode roundtrip: legacy decode inverts the encoder. -/
theorem b64_decode_encode (bs : Bytes) (h : ∀ x ∈ bs, x < 256) :
    b64DecodeLegacy (b64EncodeGroups 43 47 bs) = some bs := by
  unfold b64DecodeLegacy
  induction bs using bytesRec with
  | h0 => rfl
  | h1 b =>
    have hb : b < 256 := h b (by simp)
    rw [b64EncodeGroups,
      b64DecodeGo_step0 _ _ (b64Chr_ne_61 _ _ _ (by omega) (by omega))
        (b64IdxStd_chr _ (by omega)),
      b64DecodeGo_step1 _ _ _ (b64Chr_ne_61 _ _ _ (by omega) (by omega))
        (b64IdxStd_chr _ (by omega)),
      b64DecodeGo_pad2]
    exact congrArg some (congrArg₂ List.cons (by omega) rfl)
  | h2 b c =>
    have hb : b < 256 := h b (by simp)
    have hc : c < 256 := h c (by simp)
    rw [b64EncodeGroups,
      b64DecodeGo_step0 _ _ (b64Chr_ne_61 _ _ _ (by omega) (by omega))
        (b64IdxStd_chr _ (by omega)),
      b64DecodeGo_step1 _ _ _ (b64Chr_ne_61 _ _ _ (by omega) (by omega))
        (b64IdxStd_chr _ (by omega)),
      b64DecodeGo_step2 _ _ _ _ (b64Chr_ne_61 _ _ _ (by omega) (by omega))
        (b64IdxStd_chr _ (by omega)),
      b64DecodeGo_pad3]
    exact congrArg some (congrArg₂ List.cons (by omega) (congrArg₂ List.cons (by omega) rfl))
  | h3 b c d rest ih =>
    have hb : b < 256 := h b (by simp)
    have hc : c < 256 := h c (by simp)
    have hd : d < 256 := h d (by simp)
    have ihr := ih (fun x hx => h x (by simp [hx]))
    rw [b64EncodeGroups,
      b64DecodeGo_step0 _ _ (b64Chr_ne_61 _ _ _ (by omega) (by omega))
        (b64IdxStd_chr _ (by omega)),
      b64DecodeGo_step1 _ _ _ (b64Chr_ne_61 _ _ _ (by omega) (by omega))
        (b64IdxStd_chr _ (by omega)),
      b64DecodeGo_step2 _ _ _ _ (b64Chr_ne_61 _ _ _ (by omega) (by omega))
        (b64IdxStd_chr _ (by omega)),
      b64DecodeGo_step3 _ _ _ _ _ (b64Chr_ne_61 _ _ _ (by omega) (by omega))
        (b64IdxStd_chr _ (by omega)),
      ihr]
    simp only [Option.map_some']
    rw [b64Quad_encode b c d hb hc hd]
    rfl

/-- Urlsafe-mode roundtrip. -/
theorem urlsafe_decode_encode (bs : Bytes) (h : ∀ x ∈ bs, x < 256) :
    urlsafeB64Decode (b64EncodeGroups 45 95 bs) = some bs := by
  unfold urlsafeB64Decode
  rw [map_urlTranslate_encode]
  exact b64_decode_encode bs h

/-- The encoder never produces the empty string on nonempty input. -/
theorem b64Encode_ne_nil (p62 p63 : Nat) (bs : Bytes) (h : bs ≠ []) :
    b64EncodeGroups p62 p63 bs ≠ [] := by
  induction bs using bytesRec with
  | h0 => exact absurd rfl h
  | h1 b => simp [b64EncodeGroups]
  | h2 b c => simp [b64EncodeGroups]
  | h3 b c d rest ih => simp [b64EncodeGroups]

/-- Encoded base64 always has length a multiple of four. -/
theorem b64Encode_length_mod4 (p62 p63 : Nat) (bs : Bytes) :
    (b64EncodeGroups p62 p63 bs).length % 4 = 0 := by
  induction bs using bytesRec with
  | h0 => rfl
  | h1 b => simp [b64EncodeGroups]
  | h2 b c => simp [b64EncodeGroups]
  | h3 b c d rest ih =>
    simp only [b64EncodeGroups, List.length_cons]
    omega

/-- Every code emitted by the encoder is a byte, provided the two pad
characters are. -/
theorem b64Encode_bytes (p62 p63 : Nat) (h62 : p62 < 256) (h63 : p63 < 256) (bs : Bytes) :
    ∀ x ∈ b64EncodeGroups p62 p63 bs, x < 256 := by
  induction bs using bytesRec with
  | h0 => simp [b64EncodeGroups]
  | h1 b =>
    simp only [b64EncodeGroups, List.mem_cons, List.not_mem_nil, or_false]
    rintro x (rfl | rfl | rfl | rfl) <;> first | omega | exact b64Chr_lt_256 _ _ _ h62 h63
  | h2 b c =>
    simp only [b64EncodeGroups, List.mem_cons, List.not_mem_nil, or_false]
    rintro x (rfl | rfl | rfl | rfl) <;> first | omega | exact b64Chr_lt_256 _ _ _ h62 h63
  | h3 b c d rest ih =>
    simp only [b64EncodeGroups, List.mem_cons]
    rintro x (rfl | rfl | rfl | rfl | hx)
    · exact b64Chr_lt_256 _ _ _ h62 h63
    · exact b64Chr_lt_256 _ _ _ h62 h63
    · exact b64Chr_lt_256 _ _ _ h62 h63
    · exact b64Chr_lt_256 _ _ _ h62 h63
    · exact ih x hx

theorem hexVal_digit (n : Nat) (h : n < 16) : hexVal (hexDigitChr n) = some n := by
  unfold hexDigitChr hexVal
  split_ifs <;> first
    | exact congrArg some (by omega)
    | exfalso; omega

theorem hexDigitChr_not_ws (n : Nat) : isPyWs (hexDigitChr n) = false := by
  unfold hexDigitChr isPyWs
  split_ifs <;> simp <;> omega

theorem hexDigitChr_ne_92 (n : Nat) (h : n < 16) : hexDigitChr n ≠ 92 := by
  unfold hexDigitChr
  split_ifs <;> omega

/-- Hex output contains no whitespace, so the `fromhex` filter keeps it. -/
theorem hexEncode_filter (bs : Bytes) :
    (hexEncodeBytes bs).filter (fun c => !(isPyWs c)) = hexEncodeBytes bs := by
  induction bs with
  | nil => rfl
  | cons b rest ih => simp [hexEncodeBytes, hexDigitChr_not_ws, ih]

theorem pyFromHexGo_encode (bs : Bytes) (h : ∀ x ∈ bs, x < 256) :
    pyFromHexGo (hexEncodeBytes bs) = some bs := by
  induction bs with
  | nil => simp [hexEncodeBytes, pyFromHexGo]
  | cons b rest ih =>
    have hb : b < 256 := h b (by simp)
    have ihr := ih (fun x hx => h x (by simp [hx]))
    have hq : b / 16 * 16 + b % 16 = b := by omega
    simp only [hexEncodeBytes, pyFromHexGo, hexVal_digit (b / 16) (by omega),
      hexVal_digit (b % 16) (by omega), ihr, Option.map_some', hq]

/-- Roundtrip for the hex storage shape. -/
theorem pyFromHex_encode (bs : Bytes) (h : ∀ x ∈ bs, x < 256) :
    pyFromHex (hexEncodeBytes bs) = some bs := by
  unfold pyFromHex
  rw [hexEncode_filter]
  exact pyFromHexGo_encode bs h

theorem hexEncode_ne_nil (bs : Bytes) (h : bs ≠ []) : hexEncodeBytes bs ≠ [] := by
  cases bs with
  | nil => exact absurd rfl h
  | cons b rest => simp [hexEncodeBytes]

/-! ### The toy cipher satisfies the model assumptions -/

theorem toyFernet_sound : toyFernet.Sound := by
  intro p
  show toyDec (toyEnc p) = some p
  unfold toyDec toyEnc
  simp

theorem toyFernet_auth : toyFernet.Auth := by
  intro r q h
  have h' : toyDec r = some q := h
  show r = toyEnc q
  unfold toyDec at h'
  split_ifs at h' with hcond
  · cases h'
    exact hcond

theorem toyFernet_keepsBytes : toyFernet.KeepsBytes := by
  intro p hp x hx
  have hx' : x ∈ toyEnc p := hx
  simp only [toyEnc, List.mem_cons, List.mem_append, List.mem_singleton] at hx'
  rcases hx' with h1 | h1
  · rcases h1 with rfl | h1
    · omega
    · exact hp x h1
  · rcases h1 with rfl | h1
    · omega
    · simp at h1

theorem toyFernet_nonNil : toyFernet.NonNil := by
  intro p
  simp [toyFernet, toyEnc]

/-! ### Core decryption lemma shared by the cipher-service theorems -/

/-- Decrypting a well-formed token recovers the plaintext. -/
theorem decrypt_token_encoded (m : FernetModel) (hS : m.Sound) (hB : m.KeepsBytes)
    (hN : m.NonNil) (p : Bytes) (hp : ∀ x ∈ p, x < 256) :
    decrypt_token m (b64EncodeUrl (m.encRaw p)) = some p := by
  have hraw : ∀ x ∈ m.encRaw p, x < 256 := hB p hp
  have hne : b64EncodeUrl (m.encRaw p) ≠ [] := b64Encode_ne_nil _ _ _ (hN p)
  unfold decrypt_token
  rw [if_neg hne]
  unfold fernetDecrypt
  rw [show urlsafeB64Decode (b64EncodeUrl (m.encRaw p)) = some (m.encRaw p) from
    urlsafe_decode_encode _ hraw]
  simp [hS p]

/-! ### Claim C3 -/

/-- C3: for every plaintext (byte string) P, `decrypt_token` inverts
`encrypt_token`; the empty string maps to the explicit empty sentinel
without invoking the cipher, and back to the empty string. -/
theorem c3_encrypt_decrypt_roundtrip (m : FernetModel) (hS : m.Sound)
    (hB : m.KeepsBytes) (hN : m.NonNil) (p : Bytes) (hp : ∀ x ∈ p, x < 256) :
    decrypt_token m (encrypt_token m p) = some p ∧
    encrypt_token m [] = [] ∧ decrypt_token m [] = some [] := by
  refine ⟨?_, by simp [encrypt_token], by simp [decrypt_token]⟩
  by_cases hpe : p = []
  · subst hpe
    simp [encrypt_token, decrypt_token]
  · have he : encrypt_token m p = b64EncodeUrl (m.encRaw p) := by
      unfold encrypt_token fernetEncrypt
      rw [if_neg hpe]
    rw [he]
    exact decrypt_token_encoded m hS hB hN p hp

/-- Witness for C3 at the toy cipher and the plaintext "hi". -/
theorem c3_encrypt_decrypt_roundtrip_witness :
    decrypt_token toyFernet (encrypt_token toyFernet [104, 105]) = some [104, 105] ∧
    encrypt_token toyFernet [] = [] ∧ decrypt_token toyFernet [] = some [] :=
  c3_encrypt_decrypt_roundtrip toyFernet toyFernet_sound toyFernet_keepsBytes
    toyFernet_nonNil [104, 105] (by decide)

/-! ### Claim C4 -/

/-- C4 counterexample: encrypting "hi" (bytes 104, 105) under the toy
cipher yields the token "gGhp0Q==" (the listed byte codes); changing
its byte at index 5 from 81 to 82 is a single-byte mutation of the
ciphertext, yet `decrypt_token` SUCCEEDS on the mutated token and
returns the original plaintext, because the mutation only touches the
trailing base64 bits that `urlsafe_b64decode` discards before the HMAC
check.  This refutes the claim that decrypt fails with
`DecryptionError` on every single-byte mutation of a ciphertext. -/
theorem c4_mutation_decrypts :
    encrypt_token toyFernet [104, 105] = [103, 71, 104, 112, 48, 81, 61, 61] ∧
    decrypt_token toyFernet [103, 71, 104, 112, 48, 82, 61, 61] = some [104, 105] ∧
    [103, 71, 104, 112, 48, 82, 61, 61] ≠ [103, 71, 104, 112, 48, 81, 61, 61] := by
  decide

/-- C4 amended: decryption of any nonempty input succeeds only when its
base64 decoding is exactly the authentic raw blob of the returned
plaintext.  Hence a mutation that changes the decoded raw bytes fails
with `DecryptionError`, and a mutation confined to discarded base64
padding bits is canonicalised away and returns the original plaintext
unchanged — a mutated ciphertext can never decrypt to a different
plaintext.  Malformed ciphertext (whose base64 decoding fails or whose
blob is unauthentic) always fails. -/
theorem c4_tamper_detection (m : FernetModel) (hA : m.Auth) (t : Bytes)
    (hne : t ≠ []) (q : Bytes) (hq : decrypt_token m t = some q) :
    urlsafeB64Decode t = some (m.encRaw q) := by
  unfold decrypt_token at hq
  rw [if_neg hne] at hq
  unfold fernetDecrypt at hq
  cases hd : urlsafeB64Decode t with
  | none =>
    rw [hd] at hq
    cases hq
  | some r =>
    rw [hd] at hq
    have hq' : m.decRaw r = some q := hq
    exact congrArg some (hA r q hq')

/-- Witness for the amended C4 at the toy cipher: the mutated token of
the counterexample decodes to the authentic blob of "hi". -/
theorem c4_tamper_detection_witness :
    urlsafeB64Decode [103, 71, 104, 112, 48, 82, 61, 61] =
      some (toyFernet.encRaw [104, 105]) :=
  c4_tamper_detection toyFernet toyFernet_auth [103, 71, 104, 112, 48, 82, 61, 61]
    (by decide) [104, 105] (by decide)

/-! ### Claim C2 -/

/-- C2 counterexample: the canonical output of
`encrypt_token_for_storage` (the Fernet token string itself), fed
directly back to `decrypt_token_from_storage`, raises instead of
returning the plaintext: the token is not valid hex, and the
last-resort standard `b64decode` turns the token TEXT into the raw
blob, which `decrypt_token` then rejects.  The canonical encoding only
round-trips through the bytea/hex retrieval shape. -/
theorem c2_canonical_string_fails :
    encrypt_token_for_storage toyFernet [104, 105] ≠ [] ∧
    decrypt_token_from_storage toyFernet
      (.str (encrypt_token_for_storage toyFernet [104, 105])) = none := by
  decide

/-- Core lemma behind the amended C2: each storage shape the decoder
supports recovers the plaintext. -/
theorem storage_decoder_shapes_core (m : FernetModel) (hS : m.Sound) (hB : m.KeepsBytes)
    (hN : m.NonNil) (p : Bytes) (hp : ∀ x ∈ p, x < 256) (hpne : p ≠ []) :
    decrypt_token_from_storage m (.bin (encrypt_token_for_storage m p)) = some p ∧
    decrypt_token_from_storage m
      (.str (hexEncodeBytes (encrypt_token_for_storage m p))) = some p ∧
    decrypt_token_from_storage m
      (.str (92 :: 120 :: hexEncodeBytes (encrypt_token_for_storage m p))) = some p ∧
    (∀ s', s'.take 2 ≠ [92, 120] → pyFromHex s' = none →
      storageClean s' = b64EncodeStd (encrypt_token_for_storage m p) →
      decrypt_token_from_storage m (.str s') = some p) := by
  have htok : encrypt_token_for_storage m p = b64EncodeUrl (m.encRaw p) := by
    unfold encrypt_token_for_storage encrypt_token fernetEncrypt
    rw [if_neg hpne, if_neg hpne]
  have htokB : ∀ x ∈ encrypt_token_for_storage m p, x < 256 := by
    rw [htok]
    exact b64Encode_bytes 45 95 (by omega) (by omega) _
  have htokNe : encrypt_token_for_storage m p ≠ [] := by
    rw [htok]
    exact b64Encode_ne_nil _ _ _ (hN p)
  have hdec : decrypt_token m (encrypt_token_for_storage m p) = some p := by
    rw [htok]
    exact decrypt_token_encoded m hS hB hN p hp
  have hsd : storageDecodeBytes (hexEncodeBytes (encrypt_token_for_storage m p)) =
      some (encrypt_token_for_storage m p) := by
    unfold storageDecodeBytes
    rw [pyFromHex_encode _ htokB]
  refine ⟨?_, ?_, ?_, ?_⟩
  · simp only [decrypt_token_from_storage]
    exact hdec
  · have hsne : hexEncodeBytes (encrypt_token_for_storage m p) ≠ [] :=
      hexEncode_ne_nil _ htokNe
    have htake : (hexEncodeBytes (encrypt_token_for_storage m p)).take 2 ≠ [92, 120] := by
      cases he : encrypt_token_for_storage m p with
      | nil => exact absurd he htokNe
      | cons t0 rest =>
        have ht0 : t0 < 256 := htokB t0 (by rw [he]; exact List.mem_cons_self _ _)
        intro hcontra
        have hcontra' : hexDigitChr (t0 / 16) :: [hexDigitChr (t0 % 16)] = [92, 120] :=
          hcontra
        injection hcontra' with h1 _
        exact hexDigitChr_ne_92 (t0 / 16) (by omega) h1
    simp only [decrypt_token_from_storage]
    rw [if_neg hsne, if_neg htake, hsd]
    exact hdec
  · simp only [decrypt_token_from_storage]
    rw [if_neg (List.cons_ne_nil 92 _)]
    rw [if_pos (show (92 :: 120 :: hexEncodeBytes
      (encrypt_token_for_storage m p)).take 2 = [92, 120] from rfl)]
    show (storageDecodeBytes (hexEncodeBytes (encrypt_token_for_storage m p))).bind
      (decrypt_token m) = some p
    rw [hsd]
    exact hdec
  · intro s' htake2 hhex hclean
    have hsne' : s' ≠ [] := by
      intro h0
      subst h0
      rw [show storageClean [] = [] from rfl] at hclean
      exact b64Encode_ne_nil 43 47 _ htokNe hclean.symm
    have hsd' : storageDecodeBytes s' = some (encrypt_token_for_storage m p) := by
      unfold storageDecodeBytes
      rw [hhex]
      show b64DecodeLegacy (cleanedB64 s') = some (encrypt_token_for_storage m p)
      unfold cleanedB64
      rw [hclean]
      have hlen : (b64EncodeStd (encrypt_token_for_storage m p)).length % 4 = 0 :=
        b64Encode_length_mod4 _ _ _
      rw [hlen]
      simp only [show (4 - 0) % 4 = 0 from rfl, List.replicate_zero, List.append_nil]
      exact b64_decode_encode _ htokB
    simp only [decrypt_token_from_storage]
    rw [if_neg hsne', if_neg htake2, hsd']
    exact hdec

/-- C2 amended: `decrypt_token_from_storage` recovers the identical
plaintext from each shape the decoder actually supports — raw Fernet
token bytes, the PostgreSQL hex form of the token with or without the
literal backslash-x marker, and a whitespace-laden standard-base64
double encoding of the token (any string whose cleaned form is that
encoding and which is not valid hex) — trying hex first and the base64
fallback second, deterministically, failing only if all attempts fail.
The canonical string produced by `encrypt_token_for_storage` itself is
NOT among the accepted shapes (see the counterexample), and the
double-base64-via-hex middle strategy is unreachable dead code. -/
theorem c2_storage_decoder_shapes (m : FernetModel) (hS : m.Sound) (hB : m.KeepsBytes)
    (hN : m.NonNil) (p : Bytes) (hp : ∀ x ∈ p, x < 256) (hpne : p ≠ []) :
    decrypt_token_from_storage m (.bin (encrypt_token_for_storage m p)) = some p ∧
    decrypt_token_from_storage m
      (.str (hexEncodeBytes (encrypt_token_for_storage m p))) = some p ∧
    decrypt_token_from_storage m
      (.str (92 :: 120 :: hexEncodeBytes (encrypt_token_for_storage m p))) = some p ∧
    (∀ s', s'.take 2 ≠ [92, 120] → pyFromHex s' = none →
      storageClean s' = b64EncodeStd (encrypt_token_for_storage m p) →
      decrypt_token_from_storage m (.str s') = some p) :=
  storage_decoder_shapes_core m hS hB hN p hp hpne

/-- Witness for the amended C2 at the toy cipher and plaintext "hi":
raw token bytes, hex, backslash-x-prefixed hex, and the bytes of the
whitespace-laden double encoding "Z0do cDBR\nPT0=" all decode to
"hi". -/
theorem c2_storage_decoder_shapes_witness :
    decrypt_token_from_storage toyFernet
      (.bin (encrypt_token_for_storage toyFernet [104, 105])) = some [104, 105] ∧
    decrypt_token_from_storage toyFernet
      (.str (hexEncodeBytes (encrypt_token_for_storage toyFernet [104, 105]))) =
      some [104, 105] ∧
    decrypt_token_from_storage toyFernet
      (.str (92 :: 120 :: hexEncodeBytes (encrypt_token_for_storage toyFernet
        [104, 105]))) = some [104, 105] ∧
    decrypt_token_from_storage toyFernet
      (.str [90, 48, 100, 111, 32, 99, 68, 66, 82, 10, 80, 84, 48, 61]) =
      some [104, 105] := by
  have h := c2_storage_decoder_shapes toyFernet toyFernet_sound toyFernet_keepsBytes
    toyFernet_nonNil [104, 105] (by decide) (by decide)
  exact ⟨h.1, h.2.1, h.2.2.1, h.2.2.2 _ (by decide) (by decide) (by decide)⟩

/-! ### Claim C1 -/

/-- C1 counterexample: a callback presenting the correct pending state
whose code exchange fails leaves the pending state in the session
(`oauth_state` is popped only after a successful exchange), and a
second callback presenting the very same state is then accepted and
succeeds — contradicting both "the first callback consumes the pending
state whether the exchange succeeds or fails" and "any second callback
presenting the same state fails with StateMismatchError". -/
theorem c1_failed_exchange_keeps_state :
    (google_callback redirectU (some stateA) toyFernet cbFailExchange).sessionAfter =
      some stateA ∧
    (google_callback redirectU (some stateA) toyFernet cbFailExchange).result =
      .err .exchangeFailed ∧
    (google_callback redirectU (some stateA) toyFernet cbSuccess).result =
      .ok jwtS userU := by
  decide

/-- C1 amended: a state token is accepted at most once only along the
success path — a callback whose exchange succeeds clears the pending
state, and any later callback (with no pending state) fails with the
missing-state error without attempting the exchange; but a callback
whose exchange fails leaves the pending state in place, surfacing the
exchange error, so the same state token can be presented again. -/
theorem c1_state_consumed_only_on_success (redirectUri : String) (hr : redirectUri ≠ "")
    (s : String) (m : FernetModel) (inp : CbInput) (hmatch : inp.returnedState = s) :
    (inp.exchangeOk = true →
      (google_callback redirectUri (some s) m inp).sessionAfter = none) ∧
    (∀ m2 inp2,
      (google_callback redirectUri none m2 inp2).result = .err .missingState ∧
      (google_callback redirectUri none m2 inp2).exchangeAttempted = false) ∧
    (inp.exchangeOk = false →
      (google_callback redirectUri (some s) m inp).sessionAfter = some s ∧
      (google_callback redirectUri (some s) m inp).result = .err .exchangeFailed) := by
  refine ⟨?_, fun m2 inp2 => ⟨rfl, rfl⟩, ?_⟩
  · intro hok
    simp only [google_callback]
    split_ifs <;> first | rfl | simp_all
  · intro hfail
    simp only [google_callback]
    split_ifs <;> first | exact ⟨rfl, rfl⟩ | simp_all

/-- Witness for the amended C1: a successful callback clears the state
and the follow-up callback fails with the missing-state error. -/
theorem c1_state_consumed_only_on_success_witness :
    (google_callback redirectU (some stateA) toyFernet cbSuccess).sessionAfter = none ∧
    (google_callback redirectU none toyFernet cbSuccess).result = .err .missingState ∧
    (google_callback redirectU none toyFernet cbSuccess).exchangeAttempted = false := by
  have h := c1_state_consumed_only_on_success redirectU (by decide) stateA toyFernet
    cbSuccess rfl
  exact ⟨h.1 rfl, (h.2.1 toyFernet cbSuccess).1, (h.2.1 toyFernet cbSuccess).2⟩

/-! ### Claim C6 -/

/-- C6 counterexample: with a pending state present, a callback
presenting a state that was never issued fails with the SAME error as a
provider-side exchange failure (the generic 400 "Failed to exchange
code for tokens"), not with the distinct missing-state
(StateMismatchError) response — oauthlib's `MismatchingStateError` is
raised inside `fetch_token` and swallowed by the blanket exchange
`except`. -/
theorem c6_mismatch_conflated :
    (google_callback redirectU (some stateA) toyFernet cbWrongState).result =
      .err .exchangeFailed ∧
    (google_callback redirectU (some stateA) toyFernet cbWrongState).result =
      (google_callback redirectU (some stateA) toyFernet cbFailExchange).result ∧
    (google_callback redirectU (some stateA) toyFernet cbWrongState).result ≠
      .err .missingState := by
  decide

/-- C6 amended: a callback with no pending state fails with the
missing-state error without attempting the token exchange and without
touching the store; a callback whose returned state differs from the
pending one also never reaches the provider (the state comparison
happens before any token request), but is surfaced as the generic
exchange-failure error — indistinguishable from a provider failure —
and leaves the pending state in place. -/
theorem c6_state_mismatch_no_exchange (redirectUri : String) (hr : redirectUri ≠ "")
    (m : FernetModel) (inp : CbInput) (s : String) (hne : inp.returnedState ≠ s) :
    ((google_callback redirectUri none m inp).result = .err .missingState ∧
      (google_callback redirectUri none m inp).exchangeAttempted = false ∧
      (google_callback redirectUri none m inp).inserted = none) ∧
    ((google_callback redirectUri (some s) m inp).result = .err .exchangeFailed ∧
      (google_callback redirectUri (some s) m inp).exchangeAttempted = false ∧
      (google_callback redirectUri (some s) m inp).sessionAfter = some s) := by
  refine ⟨⟨rfl, rfl, rfl⟩, ?_⟩
  simp only [google_callback]
  split_ifs <;> first | exact ⟨rfl, rfl, rfl⟩ | simp_all

/-- Witness for the amended C6 at concrete inputs. -/
theorem c6_state_mismatch_no_exchange_witness :
    ((google_callback redirectU none toyFernet cbWrongState).result =
        .err .missingState ∧
      (google_callback redirectU none toyFernet cbWrongState).exchangeAttempted = false ∧
      (google_callback redirectU none toyFernet cbWrongState).inserted = none) ∧
    ((google_callback redirectU (some stateA) toyFernet cbWrongState).result =
        .err .exchangeFailed ∧
      (google_callback redirectU (some stateA) toyFernet
        cbWrongState).exchangeAttempted = false ∧
      (google_callback redirectU (some stateA) toyFernet cbWrongState).sessionAfter =
        some stateA) :=
  c6_state_mismatch_no_exchange redirectU (by decide) toyFernet cbWrongState stateA
    (by decide)

/-! ### Claim C7 -/

/-- C7 counterexample: a callback in which the exchange and the
Supabase sign-in succeed but the credentials insert fails still returns
the authenticated success response — the persistence failure is
swallowed with a printed warning (`storageWarned`), not surfaced as a
distinct StorageError the caller could react to. -/
theorem c7_insert_failure_swallowed :
    (google_callback redirectU (some stateA) toyFernet cbInsertFails).result =
      .ok jwtS userU ∧
    (google_callback redirectU (some stateA) toyFernet cbInsertFails).storageWarned =
      true := by
  decide

/-- C7 amended: in the OAuth callback a persistence failure after a
successful exchange is deliberately caught and only logged — the
handler still returns the success response (the spec's documented
exception for storing a secondary provider's credential); by contrast,
in `store_user_supabase_connection` a persistence failure does surface
as an error (the insert exception propagates, and an empty insert
response raises). -/
theorem c7_storage_failure_not_surfaced (redirectUri : String) (hr : redirectUri ≠ "")
    (s : String) (m : FernetModel) (inp : CbInput) (hmatch : inp.returnedState = s)
    (hok : inp.exchangeOk = true) (hid : inp.idTokenPresent = true)
    (hsi : inp.signInOk = true) (hus : inp.hasUserAndSession = true)
    (hins : inp.insertOk = false) :
    ((google_callback redirectUri (some s) m inp).result =
        .ok inp.supabaseJwt inp.supabaseUserId ∧
      (google_callback redirectUri (some s) m inp).storageWarned = true) ∧
    (∀ uid purl ak srk,
      (store_user_supabase_connection m uid purl ak srk .ok .raises).1 =
        .err .insertRaised ∧
      (store_user_supabase_connection m uid purl ak srk .ok .emptyData).1 =
        .err .storeFailed) := by
  refine ⟨?_, fun uid purl ak srk => ⟨rfl, rfl⟩⟩
  simp only [google_callback]
  split_ifs <;> first | (constructor <;> simp_all) | simp_all

/-- Witness for the amended C7 at concrete inputs. -/
theorem c7_storage_failure_not_surfaced_witness :
    ((google_callback redirectU (some stateA) toyFernet cbInsertFails).result =
        .ok jwtS userU ∧
      (google_callback redirectU (some stateA) toyFernet cbInsertFails).storageWarned =
        true) ∧
    ((store_user_supabase_connection toyFernet uid1 purlLit none srkLit .ok .raises).1 =
        .err .insertRaised ∧
      (store_user_supabase_connection toyFernet uid1 purlLit none srkLit .ok
        .emptyData).1 = .err .storeFailed) := by
  have h := c7_storage_failure_not_surfaced redirectU (by decide) stateA toyFernet
    cbInsertFails rfl rfl rfl rfl rfl rfl
  exact ⟨h.1, h.2 uid1 purlLit none srkLit⟩

/-! ### Claim C5 -/

/-- C5: `validate_jwt_token` keeps its failure modes distinct: a
structurally malformed token fails with the decode error; a token
signed with the wrong key fails with the invalid-signature error
(signature is checked before expiry, so the two are never conflated); a
token with the right key and audience whose `exp` is one second in the
past fails with the expired error; the same token with `exp` one second
in the future validates successfully; and the three error values are
pairwise distinct. -/
theorem c5_validate_distinct_errors (secret k : Nat) (now : Int) (aud : Option String)
    (exp : Option Int) (sub email phone role : Option String) :
    validate_jwt_token secret now .malformed = .err .decodeError ∧
    (k ≠ secret →
      validate_jwt_token secret now (.wellFormed k aud exp sub email phone role) =
        .err .invalidSignature) ∧
    validate_jwt_token secret now
        (.wellFormed secret (some audAuthenticated) (some (now - 1)) sub email phone
          role) = .err .expired ∧
    validate_jwt_token secret now
        (.wellFormed secret (some audAuthenticated) (some (now + 1)) sub email phone
          role) =
      .ok { aud := some audAuthenticated, exp := some (now + 1), sub := sub,
            email := email, phone := phone, role := role } ∧
    (JwtError.decodeError ≠ JwtError.invalidSignature ∧
      JwtError.invalidSignature ≠ JwtError.expired ∧
      JwtError.decodeError ≠ JwtError.expired) := by
  refine ⟨rfl, ?_, ?_, ?_, by decide⟩
  · intro hk
    simp [validate_jwt_token, pyJwtDecode, hk]
  · simp [validate_jwt_token, pyJwtDecode, pyJwtAud, show now - 1 < now from by omega]
  · simp [validate_jwt_token, pyJwtDecode, pyJwtAud,
      show ¬(now + 1 < now) from by omega]

/-- Witness for C5 at secret 7, wrong key 8 and time 1000. -/
theorem c5_validate_distinct_errors_witness :
    validate_jwt_token 7 1000 .malformed = .err .decodeError ∧
    validate_jwt_token 7 1000 (.wellFormed 8 none none none none none none) =
      .err .invalidSignature ∧
    validate_jwt_token 7 1000
        (.wellFormed 7 (some audAuthenticated) (some (1000 - 1)) none none none none) =
      .err .expired ∧
    validate_jwt_token 7 1000
        (.wellFormed 7 (some audAuthenticated) (some (1000 + 1)) none none none none) =
      .ok { aud := some audAuthenticated, exp := some (1000 + 1), sub := none,
            email := none, phone := none, role := none } ∧
    (JwtError.decodeError ≠ JwtError.invalidSignature ∧
      JwtError.invalidSignature ≠ JwtError.expired ∧
      JwtError.decodeError ≠ JwtError.expired) := by
  have h := c5_validate_distinct_errors 7 8 1000 none none none none none none
  exact ⟨h.1, h.2.1 (by decide), h.2.2.1, h.2.2.2.1, h.2.2.2.2⟩

/-! ### Claim C8 -/

theorem maxByCreated_ne_none (r : CredRow) (rest : List CredRow) :
    maxByCreated (r :: rest) ≠ none := by
  cases hm : maxByCreated rest with
  | none => simp [maxByCreated, hm]
  | some mx =>
    simp only [maxByCreated, hm]
    split_ifs <;> simp

/-- The row selected by `maxByCreated` belongs to the list and carries
its maximal `created_at`. -/
theorem maxByCreated_spec (rows : List CredRow) (r : CredRow)
    (h : maxByCreated rows = some r) :
    r ∈ rows ∧ ∀ x ∈ rows, x.created_at ≤ r.created_at := by
  induction rows generalizing r with
  | nil => cases h
  | cons a rest ih =>
    cases hm : maxByCreated rest with
    | none =>
      simp only [maxByCreated, hm] at h
      have hrest : rest = [] := by
        cases rest with
        | nil => rfl
        | cons b t => exact absurd hm (maxByCreated_ne_none b t)
      subst hrest
      cases h
      exact ⟨List.mem_cons_self _ _, by
        intro x hx
        rcases List.mem_cons.mp hx with rfl | hx'
        · exact le_refl _
        · cases hx'⟩
    | some mx =>
      simp only [maxByCreated, hm] at h
      have hmx := ih mx hm
      split_ifs at h with hgt
      · cases h
        refine ⟨List.mem_cons_of_mem _ hmx.1, ?_⟩
        intro x hx
        rcases List.mem_cons.mp hx with rfl | hx'
        · omega
        · exact hmx.2 x hx'
      · cases h
        refine ⟨List.mem_cons_self _ _, ?_⟩
        intro x hx
        rcases List.mem_cons.mp hx with rfl | hx'
        · exact le_refl _
        · have := hmx.2 x hx'
          omega

/-- C8 counterexample: with two Google credential rows for the same
user in the store (the older row returned first, as nothing orders the
query), `get_user_google_credentials` returns the OLDER row, not the
most recently created one — the sheets-side read has no
`order("created_at", desc=True)`. -/
theorem c8_google_returns_first_not_latest :
    get_user_google_credentials_row [rowOld, rowNew] uid1 = some rowOld ∧
    rowNew ∈ queryCreds [rowOld, rowNew] uid1 providerGoogle ∧
    rowOld.created_at < rowNew.created_at := by
  decide

/-- C8 amended: the supabase-side read (`get_user_supabase_client`)
does return a most-recently-created matching row and an explicit `none`
when no row matches; the google-side read (`get_user_google_credentials`)
returns the FIRST matching row in the store's default order — which
need not be the most recent — and `none` when no row matches.  Neither
read throws for "not found". -/
theorem c8_get_current_row (table : List CredRow) (uid : String) :
    (queryCreds table uid providerSupabase = [] →
      get_user_supabase_client_row table uid = none) ∧
    (∀ r, get_user_supabase_client_row table uid = some r →
      r ∈ queryCreds table uid providerSupabase ∧
      ∀ x ∈ queryCreds table uid providerSupabase, x.created_at ≤ r.created_at) ∧
    (queryCreds table uid providerGoogle = [] →
      get_user_google_credentials_row table uid = none) ∧
    (∀ r, get_user_google_credentials_row table uid = some r →
      r ∈ queryCreds table uid providerGoogle) := by
  refine ⟨?_, ?_, ?_, ?_⟩
  · intro h
    unfold get_user_supabase_client_row
    rw [h]
    rfl
  · intro r h
    exact maxByCreated_spec _ r h
  · intro h
    unfold get_user_google_credentials_row
    rw [h]
    rfl
  · intro r h
    unfold get_user_google_credentials_row at h
    cases hq : queryCreds table uid providerGoogle with
    | nil =>
      rw [hq] at h
      cases h
    | cons a t =>
      rw [hq] at h
      have h' : some a = some r := h
      cases h'
      exact List.mem_cons_self _ _

/-- Witness for the amended C8: on a store with an older and a newer
supabase row, the supabase-side read selects the newer one. -/
theorem c8_get_current_row_witness :
    get_user_supabase_client_row [rowSupaOld, rowSupaNew] uid1 = some rowSupaNew ∧
    rowSupaNew ∈ queryCreds [rowSupaOld, rowSupaNew] uid1 providerSupabase ∧
    rowSupaOld.created_at ≤ rowSupaNew.created_at := by
  have h := (c8_get_current_row [rowSupaOld, rowSupaNew] uid1).2.1 rowSupaNew (by decide)
  exact ⟨by decide, h.1, h.2 rowSupaOld (by decide)⟩

/-! ### Claim C9 -/

/-- A stored ciphertext, retrieved through the bytea/hex path, decrypts
back to the secret it encodes. -/
theorem storage_hex_roundtrip (m : FernetModel) (hS : m.Sound) (hB : m.KeepsBytes)
    (hN : m.NonNil) (p : Bytes) (hp : ∀ x ∈ p, x < 256) :
    decrypt_token_from_storage m
      (.str (hexEncodeBytes (encrypt_token_for_storage m p))) = some p := by
  by_cases hpe : p = []
  · subst hpe
    rfl
  · exact (storage_decoder_shapes_core m hS hB hN p hp hpe).2.1

/-- C9: every credential record handed to the persistence layer — by
the OAuth callback and by the supabase-connect handler — carries in its
`access_token_encrypted` / `refresh_token_encrypted` fields exactly the
Cipher Service's storage encryption of the respective secret (or `none`
when the secret is absent), and the stored ciphertext decrypts back to
the original secret through the retrieval path; plaintext secrets never
reach the persistence boundary. -/
theorem c9_secrets_encrypted_at_persistence (m : FernetModel) (hS : m.Sound)
    (hB : m.KeepsBytes) (hN : m.NonNil) :
    (∀ redirectUri session inp r,
      (google_callback redirectUri session m inp).inserted = some r →
      r.access_token_encrypted = encrypt_token_for_storage m inp.accessToken ∧
      (r.refresh_token_encrypted = some (encrypt_token_for_storage m inp.refreshToken) ∨
        (r.refresh_token_encrypted = none ∧ inp.refreshToken = [])) ∧
      ((∀ x ∈ inp.accessToken, x < 256) →
        decrypt_token_from_storage m
          (.str (hexEncodeBytes r.access_token_encrypted)) = some inp.accessToken)) ∧
    (∀ uid purl ak srk probe ins r,
      (store_user_supabase_connection m uid purl ak srk probe ins).2 = some r →
      r.access_token_encrypted = encrypt_token_for_storage m srk ∧
      (r.refresh_token_encrypted = none ∨
        ∃ a, ak = some a ∧
          r.refresh_token_encrypted = some (encrypt_token_for_storage m a)) ∧
      ((∀ x ∈ srk, x < 256) →
        decrypt_token_from_storage m
          (.str (hexEncodeBytes r.access_token_encrypted)) = some srk)) := by
  constructor
  · intro redirectUri session inp r hr
    cases session with
    | none => exact Option.noConfusion hr
    | some stored =>
      simp only [google_callback] at hr
      split_ifs at hr with h1 h2 h3 h4 h5 h6 h7
      · injection hr with hinj
        subst hinj
        exact ⟨rfl, Or.inl rfl, fun hb => storage_hex_roundtrip m hS hB hN _ hb⟩
      · injection hr with hinj
        subst hinj
        exact ⟨rfl, Or.inr ⟨rfl, not_not.mp h7⟩,
          fun hb => storage_hex_roundtrip m hS hB hN _ hb⟩
  · intro uid purl ak srk probe ins r hr
    have hsnd : ∀ data ins2, (storeInsert data ins2).2 = some data := by
      intro data ins2
      cases ins2 <;> rfl
    have hfields : r = supaConnData m uid purl ak srk →
        r.access_token_encrypted = encrypt_token_for_storage m srk ∧
        (r.refresh_token_encrypted = none ∨
          ∃ a, ak = some a ∧
            r.refresh_token_encrypted = some (encrypt_token_for_storage m a)) ∧
        ((∀ x ∈ srk, x < 256) →
          decrypt_token_from_storage m
            (.str (hexEncodeBytes r.access_token_encrypted)) = some srk) := by
      intro hdata
      subst hdata
      refine ⟨rfl, ?_, ?_⟩
      · cases ak with
        | none => exact Or.inl rfl
        | some a =>
          by_cases ha : a = []
          · left
            show (if a ≠ [] then some (encrypt_token_for_storage m a) else none) = none
            rw [if_neg (not_not_intro ha)]
          · right
            refine ⟨a, rfl, ?_⟩
            show (if a ≠ [] then some (encrypt_token_for_storage m a) else none) =
              some (encrypt_token_for_storage m a)
            rw [if_pos ha]
      · intro hbytes
        exact storage_hex_roundtrip m hS hB hN _ hbytes
    cases probe with
    | clientError => exact Option.noConfusion hr
    | ok =>
      simp only [store_user_supabase_connection, hsnd] at hr
      injection hr with hinj
      exact hfields hinj.symm
    | queryError msg =>
      simp only [store_user_supabase_connection] at hr
      split_ifs at hr with hrel
      rw [hsnd] at hr
      injection hr with hinj
      exact hfields hinj.symm

/-- Witness for C9 at the toy cipher: the records handed to the insert
by `cbSuccess` and by the supabase-connect flow carry the storage
encryptions of "hi" and of the service-role key "k", which decrypt back
through the retrieval path. -/
theorem c9_secrets_encrypted_at_persistence_witness :
    cbSuccessRecord.access_token_encrypted =
      encrypt_token_for_storage toyFernet [104, 105] ∧
    decrypt_token_from_storage toyFernet
      (.str (hexEncodeBytes cbSuccessRecord.access_token_encrypted)) =
      some [104, 105] ∧
    supaDataRec.access_token_encrypted = encrypt_token_for_storage toyFernet srkLit ∧
    decrypt_token_from_storage toyFernet
      (.str (hexEncodeBytes supaDataRec.access_token_encrypted)) = some srkLit := by
  have h := c9_secrets_encrypted_at_persistence toyFernet toyFernet_sound
    toyFernet_keepsBytes toyFernet_nonNil
  have h1 := h.1 redirectU (some stateA) cbSuccess cbSuccessRecord (by decide)
  have h2 := h.2 uid1 purlLit none srkLit .ok (.okWithId credIdLit) supaDataRec
    (by decide)
  exact ⟨h1.1, h1.2.2 (by decide), h2.1, h2.2.2 (by decide)⟩

/-! ### Claim C10 -/

/-- C10: `store_user_supabase_connection` is atomic with respect to
probe failure: when `create_client` raises, or the probe query fails
with anything other than a "relation ... does not exist" message, the
handler raises the connect error and no record is ever handed to the
store; conversely a record reaches the insert only when the probe
succeeded or failed solely with a relation-does-not-exist error. -/
theorem c10_probe_failure_atomic (m : FernetModel) (uid purl : String)
    (ak : Option Bytes) (srk : Bytes) :
    (∀ ins, store_user_supabase_connection m uid purl ak srk .clientError ins =
      (.err .connectFailed, none)) ∧
    (∀ msg ins, relationMissing msg = false →
      store_user_supabase_connection m uid purl ak srk (.queryError msg) ins =
        (.err .connectFailed, none)) ∧
    (∀ probe ins r,
      (store_user_supabase_connection m uid purl ak srk probe ins).2 = some r →
      probe = .ok ∨ ∃ msg, probe = .queryError msg ∧ relationMissing msg = true) := by
  refine ⟨fun ins => rfl, ?_, ?_⟩
  · intro msg ins hrel
    simp [store_user_supabase_connection, hrel]
  · intro probe ins r hr
    cases probe with
    | ok => exact Or.inl rfl
    | clientError => exact Option.noConfusion hr
    | queryError msg =>
      by_cases hrel : relationMissing msg = true
      · exact Or.inr ⟨msg, rfl, hrel⟩
      · simp only [store_user_supabase_connection] at hr
        rw [if_neg hrel] at hr
        exact Option.noConfusion hr

/-- Witness for C10: a client error and a genuine connection error both
leave the store untouched, while a relation-does-not-exist probe
failure lets the insert proceed. -/
theorem c10_probe_failure_atomic_witness :
    store_user_supabase_connection toyFernet uid1 purlLit none srkLit .clientError
        (.okWithId credIdLit) = (.err .connectFailed, none) ∧
    store_user_supabase_connection toyFernet uid1 purlLit none srkLit
        (.queryError msgConnRefused) (.okWithId credIdLit) =
      (.err .connectFailed, none) ∧
    (ProbeOutcome.queryError msgRelMissing = .ok ∨
      ∃ msg, ProbeOutcome.queryError msgRelMissing = .queryError msg ∧
        relationMissing msg = true) := by
  have h := c10_probe_failure_atomic toyFernet uid1 purlLit none srkLit
  exact ⟨h.1 _, h.2.1 msgConnRefused _ (by decide),
    h.2.2 (.queryError msgRelMissing) (.okWithId credIdLit) supaDataRec (by decide)⟩

end Doki
